import Mathlib

/-!
# Verification of the SwarmForge agent-orchestration core

Shallow embedding of `src/agents.py` and `src/graph.py`:

* Python `dict[str, α]` becomes an insertion-ordered association list
  `StrDict α` with insert-or-overwrite-in-place update (`dset`), mirroring
  CPython dict semantics (an overwrite keeps the key's position).
* Wall-clock values (`datetime.now()`, measured durations) are opaque: they
  enter every operation as explicit parameters (`dur : Nat`, `ts : String`).
* The body of the `try:` block in `Agent.execute` — in the shipped source the
  always-succeeding placeholder string construction, per the spec the opaque
  `generate()` collaborator that may fail — is passed in as an explicit
  outcome `Except String String`; `Agent.executeReal` instantiates it with
  the source's placeholder, which always succeeds.
* Python exceptions propagating to a caller become `Except`; an exception
  captured by an enclosing `except` arm becomes the `.error` branch of a
  `match`.
-/

/-- Insertion-ordered string-keyed dictionary (model of a Python `dict`). -/
abbrev StrDict (α : Type) := List (String × α)

/-- `d[k]` lookup returning `none` when absent (model of `dict.get`). -/
def dget? {α : Type} : StrDict α → String → Option α
  | [], _ => none
  | (k', v) :: rest, k => if k' = k then some v else dget? rest k

/-- `d[k] = v`: overwrite in place when the key exists, else append
(CPython dict assignment keeps an existing key's position). -/
def dset {α : Type} : StrDict α → String → α → StrDict α
  | [], k, v => [(k, v)]
  | (k', v') :: rest, k, v =>
      if k' = k then (k', v) :: rest else (k', v') :: dset rest k v

/-- The keys of a dictionary in order. -/
def dkeys {α : Type} (d : StrDict α) : List String := d.map Prod.fst

theorem dkeys_dset {α : Type} (d : StrDict α) (k : String) (v : α) (x : String) :
    x ∈ dkeys (dset d k v) ↔ x ∈ dkeys d ∨ x = k := by
  induction d with
  | nil => simp [dset, dkeys]
  | cons hd tl ih =>
      obtain ⟨k', v'⟩ := hd
      by_cases h : k' = k
      · subst h
        simp [dset, dkeys]
        tauto
      · simp [dset, h, dkeys] at ih ⊢
        rw [ih]
        tauto

theorem dget?_dset_self {α : Type} (d : StrDict α) (k : String) (v : α) :
    dget? (dset d k v) k = some v := by
  induction d with
  | nil => simp [dset, dget?]
  | cons hd tl ih =>
      obtain ⟨k', v'⟩ := hd
      by_cases h : k' = k <;> simp [dset, h, dget?, ih]

theorem dget?_dset_ne {α : Type} (d : StrDict α) (k k' : String) (v : α)
    (h : k' ≠ k) : dget? (dset d k' v) k = dget? d k := by
  induction d with
  | nil => simp [dset, dget?, h]
  | cons hd tl ih =>
      obtain ⟨k₀, v₀⟩ := hd
      by_cases h0 : k₀ = k'
      · subst h0
        simp [dset, dget?, h]
      · simp [dset, h0, dget?, ih]

theorem dset_of_not_mem {α : Type} (d : StrDict α) (k : String) (v : α)
    (h : k ∉ dkeys d) : dset d k v = d ++ [(k, v)] := by
  induction d with
  | nil => simp [dset]
  | cons hd tl ih =>
      obtain ⟨k', v'⟩ := hd
      have h1 : k' ≠ k := by
        intro he
        exact h (by simp [dkeys, he])
      have h2 : k ∉ dkeys tl := by
        intro hm
        exact h (by simp [dkeys] at hm ⊢; tauto)
      simp [dset, h1, ih h2]

/-- Building a dictionary by repeated assignment from a list of pairs
(model of a Python loop `for k, v in l: results[k] = v`). -/
def dbuild {α : Type} (l : List (String × α)) : StrDict α :=
  l.foldl (fun acc p => dset acc p.1 p.2) []

theorem dkeys_foldl_dset {α : Type} (l : List (String × α)) (init : StrDict α)
    (x : String) :
    x ∈ dkeys (l.foldl (fun acc p => dset acc p.1 p.2) init) ↔
      x ∈ dkeys init ∨ x ∈ l.map Prod.fst := by
  induction l generalizing init with
  | nil => simp
  | cons hd tl ih =>
      simp only [List.foldl_cons, List.map_cons, List.mem_cons]
      rw [ih, dkeys_dset]
      tauto

theorem dkeys_dbuild {α : Type} (l : List (String × α)) (x : String) :
    x ∈ dkeys (dbuild l) ↔ x ∈ l.map Prod.fst := by
  rw [dbuild, dkeys_foldl_dset]
  simp [dkeys]

/-- Looking up a key in a dictionary built from pairs whose value is a
function of the key alone. -/
theorem dget?_foldl_dset_keyed {α : Type} (f : String → α) (ns : List String)
    (init : StrDict α) (k : String) :
    dget? ((ns.map (fun n => (n, f n))).foldl
        (fun acc p => dset acc p.1 p.2) init) k
      = if k ∈ ns then some (f k) else dget? init k := by
  induction ns generalizing init with
  | nil => simp
  | cons hd tl ih =>
      simp only [List.map_cons, List.foldl_cons, List.mem_cons]
      rw [ih]
      by_cases hk : k ∈ tl
      · simp [hk]
      · by_cases he : k = hd
        · subst he
          simp [hk, dget?_dset_self]
        · simp [hk, he, dget?_dset_ne _ _ _ _ (Ne.symm he)]

theorem zip_map_same {α β γ : Type} (f : α → β) (g : α → γ) (l : List α) :
    (l.map f).zip (l.map g) = l.map (fun a => (f a, g a)) := by
  induction l with
  | nil => rfl
  | cons hd tl ih => simp [ih]

/-! ## Agents (`src/agents.py`) -/

/-- `AgentRole` enum (agents.py lines 22-28). -/
inductive AgentRole where
  | researcher | analyzer | synthesizer | executor | coordinator
deriving DecidableEq, Repr

/-- The `.value` of an `AgentRole` member. -/
def AgentRole.value : AgentRole → String
  | .researcher => "researcher"
  | .analyzer => "analyzer"
  | .synthesizer => "synthesizer"
  | .executor => "executor"
  | .coordinator => "coordinator"

/-- `ExecutionMode` enum (agents.py lines 15-19). -/
inductive ExecutionMode where
  | sequential | parallel | hierarchical
deriving DecidableEq, Repr

/-- `AgentConfig` dataclass (agents.py lines 31-39). -/
structure AgentConfig where
  name : String
  role : AgentRole
  tools : List String := []
  memory_enabled : Bool := true
  max_iterations : Nat := 5
  timeout : Nat := 30
deriving DecidableEq, Repr

/-- One record of an agent's `execution_log` (agents.py lines 63-69 / 74-80).
A successful record carries `result`, a failed one carries `error`; the
absent field is `none`. -/
structure LogEntry where
  task : String
  result : Option String
  error : Option String
  duration : Nat
  status : String
  timestamp : String
deriving DecidableEq, Repr

/-- An agent's memory cell (agents.py lines 84-89). -/
structure MemEntry (α : Type) where
  value : α
  timestamp : String
deriving DecidableEq, Repr

/-- The `Agent` runtime state (agents.py lines 42-51). The `llm` handle is an
external collaborator and carries no observable state, so it is omitted;
`messages` is declared in the source but never written by the core. -/
structure Agent where
  config : AgentConfig
  execution_log : List LogEntry
  memory : StrDict (MemEntry String)
  state : String
deriving DecidableEq, Repr

/-- A freshly constructed agent (`Agent.__init__`, agents.py lines 45-51). -/
def Agent.mk0 (config : AgentConfig) : Agent :=
  { config := config, execution_log := [], memory := [], state := "idle" }

/-- The placeholder result string built inside the `try:` block
(agents.py line 60): `f"Agent {name} ({role.value}) processed: {task[:100]}"`. -/
def Agent.simulatedResult (a : Agent) (task : String) : String :=
  let n := a.config.name
  let r := a.config.role.value
  let t := task.take 100
  s!"Agent {n} ({r}) processed: {t}"

/-- `Agent.execute` (agents.py lines 53-82), with the outcome of the `try:`
body passed in as `body` (the shipped source always succeeds, see
`Agent.executeReal`; the spec reads the body as the fallible `generate()`
collaborator). `dur` and `ts` are the measured wall-clock duration and the
log timestamp. Returns the mutated agent and the propagated result:
`.ok` is the method's return value, `.error` the re-raised exception. -/
def Agent.executeE (a : Agent) (task : String) (body : Except String String)
    (dur : Nat) (ts : String) : Agent × Except String String :=
  match body with
  | .ok result =>
      ({ a with
          execution_log := a.execution_log ++
            [{ task := task, result := some result, error := none,
               duration := dur, status := "completed", timestamp := ts }],
          state := "idle" },
       .ok result)
  | .error e =>
      ({ a with
          execution_log := a.execution_log ++
            [{ task := task, result := none, error := some e,
               duration := dur, status := "failed", timestamp := ts }],
          state := "error" },
       .error e)

/-- `Agent.execute` exactly as shipped: the `try:` body is the placeholder
string construction, which always succeeds. -/
def Agent.executeReal (a : Agent) (task : String) (dur : Nat) (ts : String) :
    Agent × Except String String :=
  a.executeE task (.ok (a.simulatedResult task)) dur ts

theorem executeE_snd (a : Agent) (task : String) (body : Except String String)
    (dur : Nat) (ts : String) : (a.executeE task body dur ts).2 = body := by
  cases body <;> rfl

/-- `Agent.store_memory` (agents.py lines 84-89). -/
def Agent.store_memory (a : Agent) (key value ts : String) : Agent :=
  { a with memory := dset a.memory key { value := value, timestamp := ts } }

/-- `Agent.retrieve_memory` (agents.py lines 91-95). -/
def Agent.retrieve_memory (a : Agent) (key : String) : Option String :=
  (dget? a.memory key).map MemEntry.value

/-- The record returned by `Agent.get_execution_stats`
(agents.py lines 104-111). -/
structure ExecStats where
  agent_name : String
  total_executions : Nat
  successful : Nat
  failed : Nat
  total_duration : Nat
  avg_duration : ℚ
deriving DecidableEq, Repr

/-- `Agent.get_execution_stats` (agents.py lines 97-111); the trailing
conditional models Python's `x / n if log else 0`. -/
def Agent.get_execution_stats (a : Agent) : ExecStats :=
  let completed := a.execution_log.filter (fun log => log.status = "completed")
  let failed := a.execution_log.filter (fun log => log.status = "failed")
  let total_duration := (a.execution_log.map LogEntry.duration).sum
  { agent_name := a.config.name
    total_executions := a.execution_log.length
    successful := completed.length
    failed := failed.length
    total_duration := total_duration
    avg_duration :=
      if a.execution_log.isEmpty then 0
      else (total_duration : ℚ) / (a.execution_log.length : ℚ) }

/-! ## Agent pools (`src/agents.py` lines 114-253) -/

/-- Opaque per-call environment for a pool execution: for each agent name,
the outcome of that agent's `try:` body (the `generate()` collaborator), the
measured duration and the log timestamp. The shipped source corresponds to
`body n = .ok (that agent's simulatedResult)`. -/
structure Env where
  body : String → Except String String
  dur : String → Nat
  ts : String → String

/-- One slot of the per-agent result mapping returned by sequential /
parallel / worker execution (agents.py lines 144-152, 168-177, 218-227).
A `success` slot carries `result`, a `failed` slot carries `error`. -/
structure ResultEntry where
  status : String
  result : Option String
  error : Option String
deriving DecidableEq, Repr

/-- The result slot built from one agent's propagated outcome: the
`try/except` arms of `execute_sequential` and the `isinstance(response,
Exception)` test of `execute_parallel` produce the same two dict shapes. -/
def entryOfOutcome : Except String String → ResultEntry
  | .ok v => { status := "success", result := some v, error := none }
  | .error e => { status := "failed", result := none, error := some e }

/-- `AgentPool` state (agents.py lines 114-120); the `llm` handle is
omitted as in `Agent`. -/
structure AgentPool where
  agents : StrDict Agent
  execution_mode : ExecutionMode
deriving DecidableEq, Repr

/-- `AgentPool.add_agent` (agents.py lines 122-126). -/
def AgentPool.add_agent (p : AgentPool) (config : AgentConfig) : AgentPool :=
  { p with agents := dset p.agents config.name (Agent.mk0 config) }

/-- `AgentPool.execute_sequential` (agents.py lines 137-154). The source's
single loop both mutates each agent in place and fills the `results` dict;
the two effects touch disjoint state, so they appear here as the two
components of the returned pair (updated agents, results). -/
def AgentPool.execute_sequential (p : AgentPool) (task : String) (env : Env) :
    StrDict Agent × StrDict ResultEntry :=
  (p.agents.map (fun na =>
      (na.1, (na.2.executeE task (env.body na.1) (env.dur na.1) (env.ts na.1)).1)),
   p.agents.foldl (fun results na =>
      dset results na.1 (entryOfOutcome
        (na.2.executeE task (env.body na.1) (env.dur na.1) (env.ts na.1)).2)) [])

/-- `AgentPool.execute_parallel` (agents.py lines 156-179): gather the
outcome of every agent's `execute` (each agent mutates itself as a side
effect), then zip the pool's key view with the response list — both iterate
the dict in the same insertion order — and fill `results` from the zip.
The `if tasks:` guard is the identity on the empty pool. -/
def AgentPool.execute_parallel (p : AgentPool) (task : String) (env : Env) :
    StrDict Agent × StrDict ResultEntry :=
  let calls := p.agents.map (fun na =>
    na.2.executeE task (env.body na.1) (env.dur na.1) (env.ts na.1))
  let responses := calls.map Prod.snd
  ((p.agents.map Prod.fst).zip (calls.map Prod.fst),
   ((p.agents.map Prod.fst).zip responses).foldl
     (fun results nr => dset results nr.1 (entryOfOutcome nr.2)) [])

/-- The `coordinator` slot of a hierarchical result (agents.py lines
195-202): on success `{"agent": ..., "result": ...}`, on failure only
`{"error": ...}` — the failure arm stores no `agent` field. -/
structure CoordSection where
  agent : Option String
  result : Option String
  error : Option String
deriving DecidableEq, Repr

/-- The dict returned by `execute_hierarchical`: either top-level key may be
absent (`none`) — `coordinator` when no coordinator executed, `workers`
when the worker sub-dict was never created (empty worker set). -/
structure HierResult where
  coordinator : Option CoordSection
  workers : Option (StrDict ResultEntry)
deriving DecidableEq, Repr

/-- Python truthiness of an `Optional[str]`: `None` and `""` are falsy. -/
def truthyStr? : Option String → Bool
  | none => false
  | some s => !(s == "")

/-- First key of a dict in insertion order
(`next(iter(self.agents.keys()))`, agents.py line 186); only consulted on a
non-empty dict. -/
def firstKey {α : Type} : StrDict α → String
  | [] => ""
  | (k, _) :: _ => k

/-- `AgentPool.execute_hierarchical` (agents.py lines 181-229).
`coordinator₀` is the `coordinator` parameter (`none` = Python `None`).
Note the two Python truthiness tests: `if not coordinator and self.agents:`
replaces an absent OR EMPTY-STRING coordinator by the first agent key, and
`if coordinator and coordinator in self.agents:` runs the coordinator only
when the (possibly replaced) name is non-empty and present. Returns
(updated agents, result dict). -/
def AgentPool.execute_hierarchical (p : AgentPool) (task : String)
    (coordinator₀ : Option String) (env : Env) : StrDict Agent × HierResult :=
  let coordinator : Option String :=
    if !truthyStr? coordinator₀ && !p.agents.isEmpty then some (firstKey p.agents)
    else coordinator₀
  -- Coordinator phase (agents.py lines 191-202)
  let coordRuns : Option (String × Agent) :=
    match coordinator with
    | some c =>
        if truthyStr? (some c) then
          match dget? p.agents c with
          | some a => some (c, a)
          | none => none
        else none
    | none => none
  let coordSection : Option CoordSection :=
    match coordRuns with
    | some (c, a) =>
        match (a.executeE ("Coordinate: " ++ task)
                (env.body c) (env.dur c) (env.ts c)).2 with
        | .ok v => some { agent := some c, result := some v, error := none }
        | .error e => some { agent := none, result := none, error := some e }
    | none => none
  -- Worker phase (agents.py lines 204-227): `name != coordinator` keeps
  -- every agent when coordinator is None (a string never equals None).
  let worker_agents : StrDict Agent :=
    match coordinator with
    | none => p.agents
    | some c => p.agents.filter (fun na => na.1 ≠ c)
  let workers : Option (StrDict ResultEntry) :=
    if worker_agents.isEmpty then none
    else
      let wcalls := worker_agents.map (fun na =>
        na.2.executeE task (env.body na.1) (env.dur na.1) (env.ts na.1))
      some (((worker_agents.map Prod.fst).zip (wcalls.map Prod.snd)).foldl
        (fun results nr => dset results nr.1 (entryOfOutcome nr.2)) [])
  -- Net agent mutation: the coordinator object ran on the prefixed task,
  -- each worker object ran on the plain task, any other agent is untouched.
  let agents' : StrDict Agent := p.agents.map (fun na =>
    match coordRuns with
    | some (c, _) =>
        if na.1 = c then
          (na.1, (na.2.executeE ("Coordinate: " ++ task)
            (env.body c) (env.dur c) (env.ts c)).1)
        else
          (na.1, (na.2.executeE task (env.body na.1) (env.dur na.1)
            (env.ts na.1)).1)
    | none =>
        match coordinator with
        | some c =>
            if na.1 = c then na
            else (na.1, (na.2.executeE task (env.body na.1) (env.dur na.1)
              (env.ts na.1)).1)
        | none =>
            (na.1, (na.2.executeE task (env.body na.1) (env.dur na.1)
              (env.ts na.1)).1))
  (agents', { coordinator := coordSection, workers := workers })

/-- A pool execution result: the flat per-agent mapping of sequential and
parallel mode, or the two-section dict of hierarchical mode. -/
inductive PoolResult where
  | flat (entries : StrDict ResultEntry)
  | hier (h : HierResult)
deriving DecidableEq, Repr

/-- `AgentPool.execute` (agents.py lines 231-240): dispatch on the execution
mode; hierarchical mode passes coordinator `None`. The `else: raise
ValueError` arm is unreachable with the closed enum. -/
def AgentPool.execute (p : AgentPool) (task : String) (env : Env) :
    StrDict Agent × PoolResult :=
  match p.execution_mode with
  | .sequential =>
      let r := p.execute_sequential task env
      (r.1, .flat r.2)
  | .parallel =>
      let r := p.execute_parallel task env
      (r.1, .flat r.2)
  | .hierarchical =>
      let r := p.execute_hierarchical task none env
      (r.1, .hier r.2)

/-! ## Orchestrator (`src/agents.py` lines 256-308) -/

/-- One record of the orchestrator's `execution_history`
(agents.py lines 286-292). -/
structure ExecRecord where
  pool : String
  task : String
  result : PoolResult
  duration : Nat
  timestamp : String
deriving DecidableEq, Repr

/-- The spec's error taxonomy (spec §7). The source realises `notFoundError`
as `raise ValueError(f"Pool ... not found")` at agents.py line 279. -/
inductive SwarmError where
  | notFoundError (msg : String)
deriving DecidableEq, Repr

/-- `SwarmOrchestrator` state (agents.py lines 256-263); the `llm` handle
and the never-consumed `task_queue` are omitted. -/
structure SwarmOrchestrator where
  agent_pools : StrDict AgentPool
  execution_history : List ExecRecord
deriving DecidableEq, Repr

/-- `SwarmOrchestrator.create_pool` (agents.py lines 265-269): registers a
fresh empty pool, overwriting any pool of the same name. -/
def SwarmOrchestrator.create_pool (o : SwarmOrchestrator) (pool_name : String) :
    SwarmOrchestrator :=
  let fresh : AgentPool := { agents := [], execution_mode := .sequential }
  { o with agent_pools := dset o.agent_pools pool_name fresh }

/-- `SwarmOrchestrator.execute_task` (agents.py lines 275-295). Returns the
orchestrator (unchanged when the lookup fails — the `raise` happens before
any mutation) together with either the propagated error or the appended
record. `dur`/`ts` are the record's measured duration and timestamp. -/
def SwarmOrchestrator.execute_task (o : SwarmOrchestrator)
    (pool_name task : String) (env : Env) (dur : Nat) (ts : String) :
    SwarmOrchestrator × Except SwarmError ExecRecord :=
  match dget? o.agent_pools pool_name with
  | none => (o, .error (.notFoundError s!"Pool {pool_name} not found"))
  | some pool =>
      let r := pool.execute task env
      let record : ExecRecord :=
        { pool := pool_name, task := task, result := r.2,
          duration := dur, timestamp := ts }
      ({ o with
          agent_pools :=
            dset o.agent_pools pool_name { pool with agents := r.1 },
          execution_history := o.execution_history ++ [record] },
       .ok record)

/-! ## Memory manager (`src/graph.py` lines 25-93) -/

/-- A short-term memory cell (graph.py lines 36-40). -/
structure STEntry (α : Type) where
  value : α
  timestamp : String
  ttl : Option Nat
deriving DecidableEq, Repr

/-- `MemoryManager` (graph.py lines 25-32), polymorphic in the stored value
type (`Any` in the source). Long-term storage is category → (key → cell),
`memory_index` is category → ordered key list. -/
structure MemoryManager (α : Type) where
  memory_type : String
  short_term : StrDict (STEntry α)
  long_term : StrDict (StrDict (MemEntry α))
  memory_index : StrDict (List String)
deriving DecidableEq, Repr

/-- A freshly constructed manager (`MemoryManager.__init__`,
graph.py lines 28-32). -/
def MemoryManager.mk0 (α : Type) : MemoryManager α :=
  { memory_type := "chroma", short_term := [], long_term := [],
    memory_index := [] }

/-- `store_short_term` (graph.py lines 34-40): unconditional overwrite. -/
def MemoryManager.store_short_term {α : Type} (m : MemoryManager α)
    (key : String) (value : α) (ttl : Option Nat) (ts : String) :
    MemoryManager α :=
  let cell : STEntry α := { value := value, timestamp := ts, ttl := ttl }
  { m with short_term := dset m.short_term key cell }

/-- `store_long_term` (graph.py lines 53-66): create the category bucket if
absent, write the cell, then create the category index if absent and append
the key unconditionally. -/
def MemoryManager.store_long_term {α : Type} (m : MemoryManager α)
    (key : String) (value : α) (category : String) (ts : String) :
    MemoryManager α :=
  let bucket := (dget? m.long_term category).getD []
  let idx := (dget? m.memory_index category).getD []
  { m with
      long_term := dset m.long_term category
        (dset bucket key { value := value, timestamp := ts }),
      memory_index := dset m.memory_index category (idx ++ [key]) }

/-- `retrieve_long_term` (graph.py lines 68-72). -/
def MemoryManager.retrieve_long_term {α : Type} (m : MemoryManager α)
    (key : String) (category : String) : Option α :=
  match dget? m.long_term category with
  | none => none
  | some bucket => (dget? bucket key).map MemEntry.value

/-- `clear_short_term` (graph.py lines 83-85). -/
def MemoryManager.clear_short_term {α : Type} (m : MemoryManager α) :
    MemoryManager α :=
  { m with short_term := [] }

/-- One state-mutating `MemoryManager` call (the retrieval and statistics
methods never write). Timestamps travel with the operation. -/
inductive MemOp (α : Type) where
  | storeShortTerm (key : String) (value : α) (ttl : Option Nat) (ts : String)
  | storeLongTerm (key : String) (value : α) (category : String) (ts : String)
  | clearShortTerm
deriving DecidableEq, Repr

/-- Apply one operation to a manager. -/
def MemoryManager.applyOp {α : Type} (m : MemoryManager α) : MemOp α → MemoryManager α
  | .storeShortTerm key value ttl ts => m.store_short_term key value ttl ts
  | .storeLongTerm key value category ts => m.store_long_term key value category ts
  | .clearShortTerm => m.clear_short_term

/-- Apply a call sequence, oldest first. -/
def MemoryManager.applyOps {α : Type} (m : MemoryManager α) (ops : List (MemOp α)) :
    MemoryManager α :=
  ops.foldl MemoryManager.applyOp m

/-- Spec §3 invariant: every key of a category's long-term bucket appears in
that category's index. -/
def MemoryManager.indexInvariant {α : Type} (m : MemoryManager α) : Prop :=
  ∀ cat bucket, dget? m.long_term cat = some bucket →
    ∀ k, k ∈ dkeys bucket → k ∈ (dget? m.memory_index cat).getD []

/-! ## Evaluation engine (`src/graph.py` lines 96-159) -/

/-- One evaluation record (graph.py lines 114-119); scores are exact
rationals standing for the source's floats. -/
structure Evaluation where
  output : String
  criteria_scores : StrDict ℚ
  overall_score : ℚ
  timestamp : String
deriving DecidableEq, Repr

/-- `EvaluationEngine` state (graph.py lines 99-101); the optional `llm`
handle is never consulted by `evaluate_output` and is omitted. -/
structure EvaluationEngine where
  evaluation_history : List Evaluation
deriving DecidableEq, Repr

/-- `EvaluationEngine.evaluate_output` (graph.py lines 103-134): snippet the
output at 100 characters, give every criterion the score
`min(len(output)/1000, 1.0)`, average across criteria (`overall_score`
stays `0.0` when `criteria` is empty), append to history, return the
record. -/
def EvaluationEngine.evaluate_output (e : EvaluationEngine) (output : String)
    (criteria : StrDict String) (ts : String) : EvaluationEngine × Evaluation :=
  let snippet := if output.length > 100 then output.take 100 ++ "..." else output
  let evaluation : Evaluation :=
    if criteria.isEmpty then
      { output := snippet, criteria_scores := [], overall_score := 0,
        timestamp := ts }
    else
      let scores : StrDict ℚ := criteria.map (fun c =>
        (c.1, min ((output.length : ℚ) / 1000) 1))
      let total : ℚ := (scores.map Prod.snd).sum
      { output := snippet, criteria_scores := scores,
        overall_score := total / (criteria.length : ℚ), timestamp := ts }
  ({ evaluation_history := e.evaluation_history ++ [evaluation] }, evaluation)

/-! ## Pipeline (`src/graph.py` lines 162-276) -/

/-- A role-tagged conversation turn (`HumanMessage` / `AIMessage`). -/
inductive Message where
  | human (content : String)
  | ai (content : String)
deriving DecidableEq, Repr

/-- The long-term record persisted by `_memory_update`
(graph.py lines 233-237). -/
structure TaskRecord where
  task : String
  results : StrDict String
  evaluation : Option Evaluation
deriving DecidableEq, Repr

/-- The pipeline's stored-value type: the `MemoryManager` holds `Any`; the
pipeline files the task string short-term and a `TaskRecord` long-term. -/
inductive PValue where
  | str (s : String)
  | record (r : TaskRecord)
deriving DecidableEq, Repr

/-- `SwarmState` (graph.py lines 14-22). `agent_results` only ever holds
string values in the pipeline; `evaluation_results` is `none` for the
initial `{}`. -/
structure SwarmState where
  task : String
  messages : List Message
  agent_results : StrDict String
  evaluation_results : Option Evaluation
  short_term_memory : StrDict (STEntry PValue)
  long_term_memory : StrDict (StrDict (MemEntry PValue))
  status : String
deriving DecidableEq, Repr

/-- `SwarmGraph` mutable state (graph.py lines 165-170): the shared
`MemoryManager` and `EvaluationEngine`; the compiled graph object is the
fixed five-stage chain embedded directly in `SwarmGraph.run`. -/
structure SwarmGraph where
  memory : MemoryManager PValue
  evaluator : EvaluationEngine
deriving DecidableEq, Repr

/-- A freshly constructed `SwarmGraph` (graph.py lines 165-170). -/
def SwarmGraph.mk0 : SwarmGraph :=
  { memory := MemoryManager.mk0 PValue, evaluator := { evaluation_history := [] } }

/-- `_process_input` (graph.py lines 195-203). -/
def SwarmGraph.process_input (g : SwarmGraph) (s : SwarmState) (ts : String) :
    SwarmGraph × SwarmState :=
  ({ g with memory :=
      g.memory.store_short_term "current_task" (.str s.task) none ts },
   { s with messages := s.messages ++ [.human s.task],
            status := "input_processed" })

/-- `_agent_execution` (graph.py lines 205-212): a placeholder two-key
result dict. -/
def SwarmGraph.agent_execution (g : SwarmGraph) (s : SwarmState) (ts : String) :
    SwarmGraph × SwarmState :=
  let t := s.task.take 50
  (g, { s with
      status := "agents_executed",
      agent_results := [("primary_agent", s!"Processing: {t}..."),
                        ("timestamp", ts)] })

/-- `_evaluation` (graph.py lines 214-227): score the `primary_agent`
output against the fixed two-criteria set. -/
def SwarmGraph.evaluation (g : SwarmGraph) (s : SwarmState) (ts : String) :
    SwarmGraph × SwarmState :=
  let criteria : StrDict String :=
    [("relevance", "Is it relevant?"), ("completeness", "Is it complete?")]
  let output := (dget? s.agent_results "primary_agent").getD ""
  let r := g.evaluator.evaluate_output output criteria ts
  ({ g with evaluator := r.1 },
   { s with evaluation_results := some r.2, status := "evaluated" })

/-- `_memory_update` (graph.py lines 229-245): file the run under category
`"tasks"` with key `task_{n}` where `n` is the current size of the `"tasks"`
bucket, then snapshot both memory tiers into the state. -/
def SwarmGraph.memory_update (g : SwarmGraph) (s : SwarmState) (ts : String) :
    SwarmGraph × SwarmState :=
  let n := ((dget? g.memory.long_term "tasks").getD []).length
  let key := s!"task_{n}"
  let value : PValue := .record
    { task := s.task, results := s.agent_results,
      evaluation := s.evaluation_results }
  let memory' := g.memory.store_long_term key value "tasks" ts
  ({ g with memory := memory' },
   { s with short_term_memory := memory'.short_term,
            long_term_memory := memory'.long_term,
            status := "memory_updated" })

/-- `_aggregate_results` (graph.py lines 247-253). -/
def SwarmGraph.aggregate_results (g : SwarmGraph) (s : SwarmState) :
    SwarmGraph × SwarmState :=
  let t := s.task.take 50
  (g, { s with
      status := "completed",
      messages := s.messages ++ [.ai s!"Task completed: {t}..."] })

/-- `SwarmGraph.run` (graph.py lines 255-268): build the fresh initial
state and drive it through the five stages in the fixed chain order
(graph.py lines 183-191). `ts` stands for the run's wall-clock timestamps. -/
def SwarmGraph.run (g : SwarmGraph) (task : String) (ts : String) :
    SwarmGraph × SwarmState :=
  let s0 : SwarmState :=
    { task := task, messages := [], agent_results := [],
      evaluation_results := none, short_term_memory := [],
      long_term_memory := [], status := "initialized" }
  let r1 := g.process_input s0 ts
  let r2 := r1.1.agent_execution r1.2 ts
  let r3 := r2.1.evaluation r2.2 ts
  let r4 := r3.1.memory_update r3.2 ts
  r4.1.aggregate_results r4.2

/-! ## Supporting lemmas -/

theorem dget?_eq_none_iff {α : Type} (d : StrDict α) (k : String) :
    dget? d k = none ↔ k ∉ dkeys d := by
  induction d with
  | nil => simp [dget?, dkeys]
  | cons hd tl ih =>
      obtain ⟨k', v'⟩ := hd
      by_cases h : k' = k
      · subst h
        simp [dget?, dkeys]
      · simp [dget?, h, dkeys, ih]
        tauto

theorem dget?_isSome_of_mem {α : Type} (d : StrDict α) (k : String)
    (h : k ∈ dkeys d) : (dget? d k).isSome := by
  cases hv : dget? d k with
  | none => exact absurd h ((dget?_eq_none_iff d k).mp hv)
  | some v => rfl

/-- The results dict built by `execute_sequential` is the assignment fold
over the pool's key list, each slot holding the entry of that agent's own
outcome. -/
theorem execute_sequential_results (p : AgentPool) (task : String) (env : Env) :
    (p.execute_sequential task env).2
      = ((dkeys p.agents).map
            (fun n => (n, entryOfOutcome (env.body n)))).foldl
          (fun acc q => dset acc q.1 q.2) [] := by
  simp only [AgentPool.execute_sequential, executeE_snd, dkeys,
    List.map_map, List.foldl_map]
  rfl

/-- The results dict built by `execute_parallel` coincides with the
sequential one: the zip of the key view with the gathered outcome list is
the same pair list the sequential loop walks. -/
theorem execute_parallel_results (p : AgentPool) (task : String) (env : Env) :
    (p.execute_parallel task env).2 = (p.execute_sequential task env).2 := by
  rw [execute_sequential_results]
  simp only [AgentPool.execute_parallel, List.map_map]
  rw [zip_map_same]
  simp only [Function.comp, executeE_snd, dkeys, List.map_map, List.foldl_map]

theorem mem_dkeys_filter_ne {α : Type} (d : StrDict α) (c k : String) :
    k ∈ dkeys (d.filter (fun na => na.1 ≠ c)) ↔ k ∈ dkeys d ∧ k ≠ c := by
  simp only [dkeys, List.mem_map, List.mem_filter]
  constructor
  · rintro ⟨na, ⟨hm, hne⟩, hk⟩
    subst hk
    simp at hne
    exact ⟨⟨na, hm, rfl⟩, hne⟩
  · rintro ⟨⟨na, hm, hk⟩, hne⟩
    subst hk
    exact ⟨na, ⟨hm, by simpa using hne⟩, rfl⟩

/-! ## Claim theorems -/

/-- C1: for every task string (and every outcome of the fallible execution
body), `Agent.execute` appends exactly one record — carrying the measured
duration and a status — to `execution_log`, and returns with `state =
"idle"` when the call succeeded and `state = "error"` when it failed (the
propagated outcome equals the body's outcome). -/
theorem agent_execute_log_and_state (a : Agent) (task : String)
    (body : Except String String) (dur : Nat) (ts : String) :
    (a.executeE task body dur ts).1.execution_log.length
        = a.execution_log.length + 1
    ∧ (a.executeE task body dur ts).2 = body
    ∧ (∀ v, body = .ok v →
        (a.executeE task body dur ts).1.state = "idle"
        ∧ (a.executeE task body dur ts).1.execution_log
            = a.execution_log ++
              [{ task := task, result := some v, error := none,
                 duration := dur, status := "completed", timestamp := ts }])
    ∧ (∀ e, body = .error e →
        (a.executeE task body dur ts).1.state = "error"
        ∧ (a.executeE task body dur ts).1.execution_log
            = a.execution_log ++
              [{ task := task, result := none, error := some e,
                 duration := dur, status := "failed", timestamp := ts }]) := by
  cases body <;> simp [Agent.executeE]

/-- Sample agent configuration used by concrete instances. -/
def cfgA : AgentConfig := { name := "A", role := .researcher }

/-- Witness for C1 at a concrete successful call. -/
theorem agent_execute_log_and_state_witness :
    ((Agent.mk0 cfgA).executeE "t" (.ok "r") 1 "ts").1.state = "idle" :=
  ((agent_execute_log_and_state (Agent.mk0 cfgA) "t" (.ok "r") 1 "ts").2.2.1
    "r" rfl).1

/-- C9: on an empty `execution_log`, `get_execution_stats` reports an
average duration of `0` (the division is guarded, not performed). -/
theorem get_execution_stats_empty_log_avg_zero (a : Agent)
    (h : a.execution_log = []) :
    a.get_execution_stats.avg_duration = 0
    ∧ a.get_execution_stats.total_executions = 0 := by
  simp [Agent.get_execution_stats, h]

/-- Witness for C9 at a freshly constructed agent. -/
theorem get_execution_stats_empty_log_avg_zero_witness :
    (Agent.mk0 cfgA).get_execution_stats.avg_duration = 0 :=
  (get_execution_stats_empty_log_avg_zero (Agent.mk0 cfgA) rfl).1

/-- A 2000-character output string. -/
def out2000 : String := String.mk (List.replicate 2000 'x')

/-- C4: `evaluate_output` scores every criterion `min(len(output)/1000, 1)`,
sets `overall_score` to the arithmetic mean of the per-criterion scores and
to `0` when the criteria mapping is empty; a 2000-character output with one
criterion scores `1` on it. -/
theorem evaluate_output_scoring (e : EvaluationEngine) (output : String)
    (criteria : StrDict String) (ts : String) :
    ((e.evaluate_output output criteria ts).2.criteria_scores
        = criteria.map (fun c => (c.1, min ((output.length : ℚ) / 1000) 1)))
    ∧ ((e.evaluate_output output criteria ts).2.overall_score
        = if criteria.isEmpty then 0
          else (((e.evaluate_output output criteria ts).2.criteria_scores.map
              Prod.snd).sum) / (criteria.length : ℚ))
    ∧ ((e.evaluate_output out2000 [("a", "d")] ts).2.criteria_scores
        = [("a", 1)])
    ∧ ((e.evaluate_output out2000 [("a", "d")] ts).2.overall_score = 1) := by
  have hlen : (out2000.length : ℚ) = 2000 := by
    norm_num [out2000, String.length]
  have hmin : min ((out2000.length : ℚ) / 1000) 1 = 1 := by
    rw [hlen]
    norm_num
  refine ⟨?_, ?_, ?_, ?_⟩
  · by_cases h : criteria.isEmpty
    · rw [List.isEmpty_iff] at h
      simp [EvaluationEngine.evaluate_output, h]
    · simp [EvaluationEngine.evaluate_output, h]
  · by_cases h : criteria.isEmpty
    · simp [EvaluationEngine.evaluate_output, h]
    · simp [EvaluationEngine.evaluate_output, h]
  · simp [EvaluationEngine.evaluate_output, hmin]
  · simp [EvaluationEngine.evaluate_output, hmin]

/-- C2: in both sequential and parallel mode the result mapping's key set
is exactly the pool's agent-name set; each agent's slot is determined by
that agent's own outcome alone (so one agent's failure neither aborts the
remaining sequential iterations nor touches any sibling's slot), and a
failing agent's slot is `{status: "failed", error}`. -/
theorem pool_execute_isolation (p : AgentPool) (task : String) (env : Env) :
    (∀ k, k ∈ dkeys (p.execute_sequential task env).2 ↔ k ∈ dkeys p.agents)
    ∧ (∀ k, k ∈ dkeys (p.execute_parallel task env).2 ↔ k ∈ dkeys p.agents)
    ∧ (∀ n, n ∈ dkeys p.agents →
        dget? (p.execute_sequential task env).2 n
            = some (entryOfOutcome (env.body n))
        ∧ dget? (p.execute_parallel task env).2 n
            = some (entryOfOutcome (env.body n)))
    ∧ (∀ n e, n ∈ dkeys p.agents → env.body n = .error e →
        dget? (p.execute_sequential task env).2 n
            = some { status := "failed", result := none, error := some e }
        ∧ dget? (p.execute_parallel task env).2 n
            = some { status := "failed", result := none, error := some e }) := by
  have hseq := execute_sequential_results p task env
  have hpar := execute_parallel_results p task env
  have hkeys : ∀ k, k ∈ dkeys (p.execute_sequential task env).2 ↔
      k ∈ dkeys p.agents := by
    intro k
    rw [hseq, dkeys_foldl_dset]
    simp [dkeys]
  have hget : ∀ n, n ∈ dkeys p.agents →
      dget? (p.execute_sequential task env).2 n
        = some (entryOfOutcome (env.body n)) := by
    intro n hn
    rw [hseq, dget?_foldl_dset_keyed]
    simp [hn]
  refine ⟨hkeys, ?_, ?_, ?_⟩
  · intro k
    rw [hpar]
    exact hkeys k
  · intro n hn
    exact ⟨hget n hn, by rw [hpar]; exact hget n hn⟩
  · intro n e hn he
    have h1 := hget n hn
    rw [he] at h1
    exact ⟨h1, by rw [hpar]; exact h1⟩

/-- A two-agent sample pool. -/
def poolAB : AgentPool :=
  { agents := [("A", Agent.mk0 cfgA),
               ("B", Agent.mk0 { name := "B", role := .analyzer })],
    execution_mode := .sequential }

/-- Environment in which agent "B" fails and every other agent succeeds. -/
def envBFails : Env :=
  { body := fun n => if n = "B" then .error "boom" else .ok "r",
    dur := fun _ => 1, ts := fun _ => "ts" }

/-- Witness for C2: in `poolAB` under `envBFails`, agent "B" gets a failed
slot while agent "A" keeps its own success slot. -/
theorem pool_execute_isolation_witness :
    dget? (poolAB.execute_sequential "t" envBFails).2 "B"
        = some { status := "failed", result := none, error := some "boom" }
    ∧ dget? (poolAB.execute_sequential "t" envBFails).2 "A"
        = some { status := "success", result := some "r", error := none } := by
  refine ⟨((pool_execute_isolation poolAB "t" envBFails).2.2.2 "B" "boom"
      (by decide) rfl).1, ?_⟩
  have h := ((pool_execute_isolation poolAB "t" envBFails).2.2.1 "A"
      (by decide)).1
  simpa [envBFails, entryOfOutcome] using h

/-- The all-success environment standing for the shipped source, in which
every agent's `try:` body returns the placeholder string. -/
def envOk : Env :=
  { body := fun _ => .ok "r", dur := fun _ => 1, ts := fun _ => "ts" }

/-- C3: on a pool whose agents all succeed deterministically, sequential
and parallel execution return result mappings with identical key sets and
identical values at every key. -/
theorem seq_par_agree (p : AgentPool) (task : String) (env : Env)
    (hsucc : ∀ n ∈ dkeys p.agents, ∃ v, env.body n = .ok v) :
    (∀ k, k ∈ dkeys (p.execute_sequential task env).2 ↔
        k ∈ dkeys (p.execute_parallel task env).2)
    ∧ (∀ k, dget? (p.execute_sequential task env).2 k
        = dget? (p.execute_parallel task env).2 k) := by
  have hpar := execute_parallel_results p task env
  exact ⟨fun k => by rw [hpar], fun k => by rw [hpar]⟩

/-- Witness for C3 on the concrete two-agent pool with the all-success
environment. -/
theorem seq_par_agree_witness :
    dget? (poolAB.execute_sequential "t" envOk).2 "A"
      = dget? (poolAB.execute_parallel "t" envOk).2 "A" :=
  (seq_par_agree poolAB "t" envOk
    (fun n _ => ⟨"r", rfl⟩)).2 "A"

/-- `store_long_term` leaves every category's index-coverage intact and
extends the touched category by at most the stored key. -/
theorem store_long_term_preserves_invariant {α : Type} (m : MemoryManager α)
    (key : String) (value : α) (category ts : String)
    (hm : m.indexInvariant) :
    (m.store_long_term key value category ts).indexInvariant := by
  intro cat bucket hb k hk
  by_cases hc : cat = category
  · subst hc
    rw [MemoryManager.store_long_term] at hb
    simp only at hb
    rw [dget?_dset_self] at hb
    have hidx : dget? (m.store_long_term key value cat ts).memory_index cat
        = some ((dget? m.memory_index cat).getD [] ++ [key]) := by
      rw [MemoryManager.store_long_term]
      simp only
      rw [dget?_dset_self]
    rw [hidx]
    simp only [Option.getD_some]
    obtain rfl : bucket = dset ((dget? m.long_term cat).getD []) key
        { value := value, timestamp := ts } := by
      injection hb with h
      exact h.symm
    rw [dkeys_dset] at hk
    rcases hk with hk | hk
    · cases hlt : dget? m.long_term cat with
      | none =>
          rw [hlt] at hk
          simp [dkeys] at hk
      | some b0 =>
          rw [hlt] at hk
          simp only [Option.getD_some] at hk
          exact List.mem_append_left _ (hm cat b0 hlt k hk)
    · subst hk
      exact List.mem_append_right _ (List.mem_singleton.mpr rfl)
  · rw [MemoryManager.store_long_term] at hb
    simp only at hb
    rw [dget?_dset_ne _ _ _ _ (fun h => hc h.symm)] at hb
    have hidx : dget? (m.store_long_term key value category ts).memory_index cat
        = dget? m.memory_index cat := by
      rw [MemoryManager.store_long_term]
      simp only
      exact dget?_dset_ne _ _ _ _ (fun h => hc h.symm)
    rw [hidx]
    exact hm cat bucket hb k hk

/-- Every single operation preserves the index invariant. -/
theorem applyOp_preserves_invariant {α : Type} (m : MemoryManager α)
    (op : MemOp α) (hm : m.indexInvariant) :
    (m.applyOp op).indexInvariant := by
  cases op with
  | storeShortTerm key value ttl ts =>
      intro cat bucket hb k hk
      exact hm cat bucket hb k hk
  | storeLongTerm key value category ts =>
      exact store_long_term_preserves_invariant m key value category ts hm
  | clearShortTerm =>
      intro cat bucket hb k hk
      exact hm cat bucket hb k hk

/-- Any operation sequence applied to a fresh manager satisfies the index
invariant. -/
theorem applyOps_invariant {α : Type} (ops : List (MemOp α)) :
    ((MemoryManager.mk0 α).applyOps ops).indexInvariant := by
  rw [MemoryManager.applyOps]
  induction ops using List.reverseRecOn with
  | nil =>
      intro c b hcb
      simp [MemoryManager.mk0, dget?] at hcb
  | append_singleton tl op ih =>
      rw [List.foldl_append, List.foldl_cons, List.foldl_nil]
      exact applyOp_preserves_invariant _ op ih

/-- C8: after any sequence of `MemoryStore` operations every key present in
a category's long-term bucket appears in that category's index; moreover
`store_long_term` always materialises the category bucket and appends the
key to the index, even when the key already exists in the bucket. -/
theorem memory_index_covers_buckets {α : Type} (ops : List (MemOp α))
    (cat k : String) (bucket : StrDict (MemEntry α))
    (hb : dget? ((MemoryManager.mk0 α).applyOps ops).long_term cat
        = some bucket)
    (hk : k ∈ dkeys bucket) :
    k ∈ (dget? ((MemoryManager.mk0 α).applyOps ops).memory_index cat).getD []
    ∧ ∀ (m : MemoryManager α) (key : String) (value : α) (c ts : String),
        dget? (m.store_long_term key value c ts).memory_index c
            = some ((dget? m.memory_index c).getD [] ++ [key])
        ∧ dget? (m.store_long_term key value c ts).long_term c
            = some (dset ((dget? m.long_term c).getD []) key
                { value := value, timestamp := ts }) := by
  constructor
  · exact applyOps_invariant ops cat bucket hb k hk
  · intro m key value c ts
    constructor
    · rw [MemoryManager.store_long_term]
      simp only
      rw [dget?_dset_self]
    · rw [MemoryManager.store_long_term]
      simp only
      rw [dget?_dset_self]

/-- Witness for C8: storing the same key twice in one category leaves it in
the bucket and covered by the (duplicated) index. -/
theorem memory_index_covers_buckets_witness :
    "k" ∈ (dget? ((MemoryManager.mk0 Nat).applyOps
        [.storeLongTerm "k" 0 "c" "t1",
         .storeLongTerm "k" 1 "c" "t2"]).memory_index "c").getD [] := by
  refine (memory_index_covers_buckets
    [.storeLongTerm "k" 0 "c" "t1", .storeLongTerm "k" 1 "c" "t2"]
    "c" "k" [("k", { value := 1, timestamp := "t2" })] ?_ ?_).1
  · rfl
  · decide

/-- C6: `execute_task` on an unregistered pool name fails with the
taxonomy's `NotFoundError` (realised as `ValueError` in the source) leaving
the orchestrator — in particular `execution_history` — unchanged; on a
registered pool it appends exactly one `{pool, task, result, duration,
timestamp}` record to `execution_history` and returns that record. -/
theorem orchestrator_execute_task_spec (o : SwarmOrchestrator)
    (pool_name task : String) (env : Env) (dur : Nat) (ts : String) :
    (dget? o.agent_pools pool_name = none →
        (o.execute_task pool_name task env dur ts).1 = o
        ∧ (o.execute_task pool_name task env dur ts).2
            = .error (.notFoundError s!"Pool {pool_name} not found"))
    ∧ (∀ pool, dget? o.agent_pools pool_name = some pool →
        (o.execute_task pool_name task env dur ts).1.execution_history
            = o.execution_history ++
              [{ pool := pool_name, task := task,
                 result := (pool.execute task env).2,
                 duration := dur, timestamp := ts }]
        ∧ (o.execute_task pool_name task env dur ts).2
            = .ok { pool := pool_name, task := task,
                    result := (pool.execute task env).2,
                    duration := dur, timestamp := ts }) := by
  constructor
  · intro hnone
    rw [SwarmOrchestrator.execute_task, hnone]
    exact ⟨rfl, rfl⟩
  · intro pool hsome
    rw [SwarmOrchestrator.execute_task, hsome]
    exact ⟨rfl, rfl⟩

/-- Witness for C6: one orchestrator with a single registered pool; the
missing name fails without touching history, the registered name appends
its record. -/
theorem orchestrator_execute_task_spec_witness :
    ((SwarmOrchestrator.mk [] []).execute_task "missing_pool" "t" envOk 1
        "ts").1 = SwarmOrchestrator.mk [] []
    ∧ (((SwarmOrchestrator.mk [] []).create_pool "p").execute_task "p" "t"
        envOk 1 "ts").1.execution_history.length = 1 := by
  constructor
  · exact ((orchestrator_execute_task_spec (SwarmOrchestrator.mk [] [])
      "missing_pool" "t" envOk 1 "ts").1 rfl).1
  · have h := ((orchestrator_execute_task_spec
      ((SwarmOrchestrator.mk [] []).create_pool "p") "p" "t" envOk 1 "ts").2
      { agents := [], execution_mode := .sequential } rfl).1
    rw [h]
    rfl

/-- The current `"tasks"` bucket of a graph's long-term memory (absent
category read as empty, as `dict.get('tasks', {})` does). -/
def SwarmGraph.tasksBucket (g : SwarmGraph) : StrDict (MemEntry PValue) :=
  (dget? g.memory.long_term "tasks").getD []

/-- The count-derived key `_memory_update` files a run under
(graph.py line 232). -/
def taskKey (n : Nat) : String := s!"task_{n}"

/-- The completion turn appended by `_aggregate_results`
(graph.py line 251). -/
def completionMessage (task : String) : String :=
  let t := task.take 50
  s!"Task completed: {t}..."

/-- C7: a full pipeline run ends with `status = "completed"` and exactly
the two turns input-then-completion in `messages`; when the count-derived
key is not already present (always the case from a fresh store), exactly
one new key is filed under long-term category `"tasks"`. -/
theorem pipeline_run_completes (g : SwarmGraph) (task ts : String)
    (hfresh : taskKey g.tasksBucket.length ∉ dkeys g.tasksBucket) :
    (g.run task ts).2.status = "completed"
    ∧ (g.run task ts).2.messages
        = [.human task, .ai (completionMessage task)]
    ∧ (g.run task ts).2.messages.length = 2
    ∧ dkeys (g.run task ts).1.tasksBucket
        = dkeys g.tasksBucket ++ [taskKey g.tasksBucket.length]
    ∧ (g.run task ts).1.tasksBucket.length = g.tasksBucket.length + 1 := by
  have hbucket : (g.run task ts).1.tasksBucket
      = g.tasksBucket ++
        [(taskKey g.tasksBucket.length,
          { value := PValue.record
              { task := task,
                results := [("primary_agent",
                    "Processing: " ++ task.take 50 ++ "..."), ("timestamp", ts)],
                evaluation := some (((SwarmGraph.mk
                    (g.memory.store_short_term "current_task" (.str task) none ts)
                    g.evaluator).evaluator.evaluate_output
                      ("Processing: " ++ task.take 50 ++ "...")
                      [("relevance", "Is it relevant?"),
                       ("completeness", "Is it complete?")] ts).2) },
            timestamp := ts })] := by
    rw [← dset_of_not_mem g.tasksBucket _ _ hfresh]
    simp only [SwarmGraph.run, SwarmGraph.process_input,
      SwarmGraph.agent_execution, SwarmGraph.evaluation,
      SwarmGraph.memory_update, SwarmGraph.aggregate_results,
      SwarmGraph.tasksBucket, MemoryManager.store_long_term,
      MemoryManager.store_short_term, taskKey]
    rw [dget?_dset_self]
    simp [dget?, completionMessage, ToString.toString, instToStringString]
  refine ⟨?_, ?_, ?_, ?_, ?_⟩
  · simp [SwarmGraph.run, SwarmGraph.process_input,
      SwarmGraph.agent_execution, SwarmGraph.evaluation,
      SwarmGraph.memory_update, SwarmGraph.aggregate_results]
  · simp [SwarmGraph.run, SwarmGraph.process_input,
      SwarmGraph.agent_execution, SwarmGraph.evaluation,
      SwarmGraph.memory_update, SwarmGraph.aggregate_results,
      completionMessage]
  · simp [SwarmGraph.run, SwarmGraph.process_input,
      SwarmGraph.agent_execution, SwarmGraph.evaluation,
      SwarmGraph.memory_update, SwarmGraph.aggregate_results]
  · rw [hbucket]
    simp [dkeys]
  · rw [hbucket]
    simp

/-- Witness for C7: running `"demo task"` on a freshly constructed graph. -/
theorem pipeline_run_completes_witness :
    (SwarmGraph.mk0.run "demo task" "t0").2.status = "completed"
    ∧ (SwarmGraph.mk0.run "demo task" "t0").1.tasksBucket.length = 1 := by
  have h := pipeline_run_completes SwarmGraph.mk0 "demo task" "t0"
    (by simp [SwarmGraph.tasksBucket, SwarmGraph.mk0, MemoryManager.mk0,
      dget?, dkeys])
  exact ⟨h.1, h.2.2.2.2⟩

/-- Full characterization of `execute_hierarchical` under an explicit
non-empty coordinator name `c` (Python truthiness keeps such a name): the
coordinator section exists iff `c` is in the pool — carrying the `agent`
field only on success — and the workers dict, when created, assigns every
agent other than `c` the entry of its own outcome. -/
theorem execute_hierarchical_explicit (p : AgentPool) (task c : String)
    (env : Env) (hc : c ≠ "") :
    (p.execute_hierarchical task (some c) env).2
      = { coordinator :=
            match dget? p.agents c with
            | some _ =>
                match env.body c with
                | .ok v =>
                    some { agent := some c, result := some v, error := none }
                | .error e =>
                    some { agent := none, result := none, error := some e }
            | none => none,
          workers :=
            if (p.agents.filter (fun na => na.1 ≠ c)).isEmpty then none
            else some (dbuild ((dkeys (p.agents.filter (fun na => na.1 ≠ c))).map
                (fun n => (n, entryOfOutcome (env.body n))))) } := by
  have hbeq : (c == "") = false := by
    simp [hc]
  cases hlt : dget? p.agents c with
  | none =>
      simp [AgentPool.execute_hierarchical, truthyStr?, hbeq, hlt, dbuild,
        dkeys, executeE_snd, zip_map_same, List.foldl_map, List.map_map,
        Function.comp]
      simp only [Bool.not_not, hbeq, Bool.false_and, Bool.false_eq_true,
        if_false, decide_not]
  | some a =>
      cases hb : env.body c with
      | ok v =>
          simp [AgentPool.execute_hierarchical, truthyStr?, hbeq, hlt, hb,
            dbuild, dkeys, executeE_snd, zip_map_same, List.foldl_map,
            List.map_map, Function.comp]
          simp only [Bool.not_not, hbeq, Bool.false_and, Bool.false_eq_true,
            if_false, decide_not]
      | error e =>
          simp [AgentPool.execute_hierarchical, truthyStr?, hbeq, hlt, hb,
            dbuild, dkeys, executeE_snd, zip_map_same, List.foldl_map,
            List.map_map, Function.comp]
          simp only [Bool.not_not, hbeq, Bool.false_and, Bool.false_eq_true,
            if_false, decide_not]

/-- C5 (amended): for a non-empty, pool-member coordinator name `c`, the
coordinator section carries `agent = c` together with the result on
success, but on failure carries only the error (the `agent` field is
absent); the workers mapping — read as empty when the section is absent —
has key set exactly the pool's agent names minus `c`. -/
theorem hier_explicit_coordinator_sections (p : AgentPool) (task c : String)
    (env : Env) (a : Agent) (hc : c ≠ "") (hmem : dget? p.agents c = some a) :
    (∀ v, env.body c = .ok v →
        (p.execute_hierarchical task (some c) env).2.coordinator
          = some { agent := some c, result := some v, error := none })
    ∧ (∀ e, env.body c = .error e →
        (p.execute_hierarchical task (some c) env).2.coordinator
          = some { agent := none, result := none, error := some e })
    ∧ (∀ k, k ∈ dkeys
          (((p.execute_hierarchical task (some c) env).2.workers).getD [])
        ↔ (k ∈ dkeys p.agents ∧ k ≠ c)) := by
  have hmain := execute_hierarchical_explicit p task c env hc
  refine ⟨?_, ?_, ?_⟩
  · intro v hv
    rw [hmain]
    simp [hmem, hv]
  · intro e he
    rw [hmain]
    simp [hmem, he]
  · intro k
    rw [hmain]
    by_cases hw : (p.agents.filter (fun na => na.1 ≠ c)).isEmpty = true
    · have hnil : p.agents.filter (fun na => na.1 ≠ c) = [] :=
        List.isEmpty_iff.mp hw
      have hall : ∀ na ∈ p.agents, ¬(na.1 ≠ c) := by
        simpa using List.filter_eq_nil_iff.mp hnil
      simp only [if_pos hw, Option.getD_none, dkeys, List.map_nil,
        List.not_mem_nil, false_iff]
      rintro ⟨hk, hne⟩
      simp only [dkeys, List.mem_map] at hk
      obtain ⟨na, hna, hk1⟩ := hk
      apply hall na hna
      rw [hk1]
      exact hne
    · simp only [if_neg hw, Option.getD_some]
      rw [← mem_dkeys_filter_ne p.agents c k]
      rw [dkeys_dbuild]
      simp [dkeys]

/-- A one-agent sample pool. -/
def poolA : AgentPool :=
  { agents := [("A", Agent.mk0 cfgA)], execution_mode := .hierarchical }

/-- Environment in which every agent's execution body fails. -/
def envAllFail : Env :=
  { body := fun _ => .error "boom", dur := fun _ => 1, ts := fun _ => "ts" }

/-- Counterexample to C5 as stated: with pool `{A}`, explicit coordinator
`"A"` and a failing coordinator call, the coordinator section exists but
carries NO `agent` field (agents.py lines 199-202 store only `{"error"}`),
contradicting the claim that the section contains `agent == c` for the
failure outcome as well. -/
theorem hier_coordinator_failure_drops_agent_field :
    (poolA.execute_hierarchical "t" (some "A") envAllFail).2.coordinator
        = some { agent := none, result := none, error := some "boom" }
    ∧ ((poolA.execute_hierarchical "t" (some "A") envAllFail).2.coordinator.bind
        CoordSection.agent) ≠ some "A" := by
  constructor
  · rfl
  · decide

/-- A three-agent sample pool. -/
def poolABC : AgentPool :=
  { agents := [("A", Agent.mk0 cfgA),
               ("B", Agent.mk0 { name := "B", role := .analyzer }),
               ("C", Agent.mk0 { name := "C", role := .executor })],
    execution_mode := .hierarchical }

/-- Witness for the amended C5: agents `{A, B, C}` with coordinator `B`
give `coordinator.agent == "B"` and workers exactly `{A, C}`. -/
theorem hier_explicit_coordinator_sections_witness :
    (poolABC.execute_hierarchical "t" (some "B") envOk).2.coordinator
        = some { agent := some "B", result := some "r", error := none }
    ∧ ("A" ∈ dkeys
        (((poolABC.execute_hierarchical "t" (some "B") envOk).2.workers).getD [])
      ↔ ("A" ∈ dkeys poolABC.agents ∧ "A" ≠ "B")) := by
  have h := hier_explicit_coordinator_sections poolABC "t" "B" envOk
    (Agent.mk0 { name := "B", role := .analyzer }) (by decide) rfl
  exact ⟨h.1 "r" rfl, h.2.2 "A"⟩

/-- C10 (amended): an explicit NON-EMPTY coordinator name that is not an
agent of the pool yields no coordinator section, and the workers mapping —
read as empty when the section is absent — has key set exactly the full
agent-name set. -/
theorem hier_unknown_coordinator_all_workers (p : AgentPool) (task c : String)
    (env : Env) (hne : p.agents ≠ []) (hc : c ≠ "")
    (hmem : dget? p.agents c = none) :
    (p.execute_hierarchical task (some c) env).2.coordinator = none
    ∧ (∀ k, k ∈ dkeys
          (((p.execute_hierarchical task (some c) env).2.workers).getD [])
        ↔ k ∈ dkeys p.agents) := by
  have hmain := execute_hierarchical_explicit p task c env hc
  have hnotin : c ∉ dkeys p.agents := (dget?_eq_none_iff p.agents c).mp hmem
  constructor
  · rw [hmain]
    simp [hmem]
  · intro k
    rw [hmain]
    have hfe : p.agents.filter (fun na => na.1 ≠ c) = p.agents := by
      apply List.filter_eq_self.mpr
      intro na hna
      simp only [ne_eq, decide_not, Bool.not_eq_true']
      rw [decide_eq_false_iff_not]
      intro he
      exact hnotin (by simpa [dkeys, he] using List.mem_map_of_mem Prod.fst hna)
    by_cases hw : (p.agents.filter (fun na => na.1 ≠ c)).isEmpty = true
    · rw [hfe] at hw
      exact absurd (List.isEmpty_iff.mp hw) hne
    · simp only [if_neg hw, Option.getD_some]
      rw [dkeys_dbuild]
      simp only [dkeys, hfe, List.map_map, List.mem_map, Function.comp]

/-- Counterexample to C10 as stated: the empty string is an explicit
coordinator name that is not an agent of `poolA`, yet Python's `if not
coordinator` treats it as unspecified, defaults the coordinator to the
first agent `"A"`, and produces a coordinator section with NO workers
section at all. -/
theorem hier_empty_coordinator_name_defaults :
    dget? poolA.agents "" = none
    ∧ (poolA.execute_hierarchical "t" (some "") envOk).2.coordinator
        = some { agent := some "A", result := some "r", error := none }
    ∧ (poolA.execute_hierarchical "t" (some "") envOk).2.workers = none := by
  refine ⟨rfl, rfl, rfl⟩

/-- Witness for the amended C10 on a concrete pool and outsider name. -/
theorem hier_unknown_coordinator_all_workers_witness :
    (poolABC.execute_hierarchical "t" (some "X") envOk).2.coordinator = none
    ∧ ("B" ∈ dkeys
        (((poolABC.execute_hierarchical "t" (some "X") envOk).2.workers).getD [])
      ↔ "B" ∈ dkeys poolABC.agents) := by
  have h := hier_unknown_coordinator_all_workers poolABC "t" "X" envOk
    (by decide) (by decide) rfl
  exact ⟨h.1, h.2 "B"⟩
